import Mathlib

/-!
Shallow embedding of the Gurobi.go binding layer (files env.go and model.go of
package gurobi).  The package is marshaling glue over the Gurobi C API: it
builds contiguous CSR index/value arrays, checks return codes of foreign
calls, and caches handles (environment, model, variable, constraint) in thin
wrapper structs.

Modelling conventions:
* Go float64 values are carried opaquely by this wrapper (the only arithmetic
  performed on them in-repository is the offset accumulation of the
  expression builders), so they are embedded as integers `GoFloat := Int`.
* Go nil-able pointers become `Option`: a `*C.GRBenv` or `*C.GRBmodel`
  handle is an `Option Nat` (a pointer identity), a `*Env` or `*Model`
  receiver is an `Option Env` / `Option Model`.
* The foreign interface is an oracle (`FFI`): every C call is reified as an
  `FFICall` value; the oracle supplies its return code and any values the C
  side writes through out-parameters.  Functions whose claims speak about
  which foreign calls happen additionally return the list of calls made.
* A Go function returning `error` becomes `Option GoError` (none = nil
  error); a function returning `(T, error)` becomes `T × Option GoError`;
  operations that can terminate the program by a runtime panic (slice index
  out of range, nil map dereference) return a `GoResult` with a dedicated
  `panicked` outcome.
* Go `int` values (lengths, loop counters) are embedded as `Nat`/`Int`
  exactly; the `int32(...)` casts applied to lengths and loop indices in the
  source are modelled as exact conversions, since every count handled by the
  wrapper is bounded by the C API `int` arguments it is marshalled into and
  no in-domain call overflows 32 bits.
-/

/-- Embedding of Go float64 scalars; the wrapper only carries them around
(see the module docstring). -/
abbrev GoFloat := Int

/-- The distinct error values produced by the package (each constructor
corresponds to one family of `errors.New` / `fmt.Errorf` sites or one named
error type of the source). -/
inductive GoError where
  /-- Go method `Model.MakeUninitializedError`: the fixed error
  "The gurobi model was not yet initialized!". -/
  | uninitializedModel
  /-- Modelled from the spec: `Env.MakeUninitializedError` is referenced in
  env.go and model.go but its definition is not among the provided sources;
  per the spec the environment wrapper reports an uninitialized-environment
  error, modelled as this fixed non-nil error value. -/
  | uninitializedEnv
  /-- The literal error "env is nil" of SetIntParam / SetDBLParam /
  GetDBLParam. -/
  | envNil
  /-- The invalid-parameter-name error of SetDBLParam / GetDBLParam. -/
  | invalidParam (paramName : String)
  /-- Modelled from the spec: the `MismatchedLengthError` struct is used by
  the input-checking helpers with fields Length1, Length2, Name1, Name2 but
  its declaration is not among the provided sources; it is a distinguished
  non-nil error carrying the two lengths and slice names. -/
  | mismatchedLength (length1 length2 : Nat) (name1 name2 : String)
  /-- Sites of `errors.New("")`. -/
  | emptyMessage
  /-- Other `errors.New`/`fmt.Errorf` sites with a fixed message. -/
  | msg (s : String)
  /-- Sites of `fmt.Errorf` that embed a foreign return code in a message. -/
  | msgCode (site : String) (code : Int)
  /-- Modelled from the spec: `MakeError` (on Env and Model) is referenced
  but not among the provided sources; per the spec, nonzero foreign return
  codes are translated into errors, so it is modelled as a non-nil error
  carrying the code. -/
  | grb (code : Int)
  /-- Site of `errors.New("Failed retrieve the environment")` in NewModel/LoadModel. -/
  | failedRetrieveEnv
deriving DecidableEq

/-- Outcome of a Go function call that can also end in a runtime panic
(out-of-range slice write or nil pointer dereference). -/
inductive GoResult (α : Type) where
  | ok (a : α)
  | err (e : GoError)
  | panicked
deriving DecidableEq

/-- Reified foreign-interface calls (the GRB* functions of the C API used by
the package), with the arguments marshalled by the wrapper. -/
inductive FFICall where
  | setdblparam (env : Option Nat) (paramName : String) (val : GoFloat)
  | getdblparam (env : Option Nat) (paramName : String)
  | setintparam (env : Option Nat) (paramName : String) (val : Int)
  | setstrparam (env : Option Nat) (param newvalue : String)
  | newmodel (env : Option Nat) (modelname : String)
  | readmodel (env : Option Nat) (modelPath : String)
  | getenvOf (model : Option Nat)
  | addvar (model : Option Nat) (numnz : Nat) (ind : List Int)
      (columns : List GoFloat) (obj lb ub : GoFloat) (vtype : Int)
      (name : String)
  | addvars (model : Option Nat) (numvars numnz : Nat) (beg : List Nat)
      (ind : List Int) (val : List GoFloat) (objs lbs ubs : List GoFloat)
      (vtypes : List Int) (names : List String)
  | addconstr (model : Option Nat) (numnz : Int) (ind : List Int)
      (val : List GoFloat) (sense : Int) (rhs : GoFloat) (name : String)
  | addconstrs (model : Option Nat) (numconstrs numnz : Nat)
      (beg : List Nat) (ind : List Int) (val : List GoFloat)
      (senses : List Int) (rhs : List GoFloat) (names : List String)
  | updatemodel (model : Option Nat)
  | optimize (model : Option Nat)
  | write (model : Option Nat) (filename : String)
  | getintattr (model : Option Nat) (attrname : String)
  | getdblattr (model : Option Nat) (attrname : String)
  | getstrattr (model : Option Nat) (attrname : String)
  | setintattr (model : Option Nat) (attrname : String) (value : Int)
  | setdblattr (model : Option Nat) (attrname : String) (value : GoFloat)
  | setstrattr (model : Option Nat) (attrname value : String)
  | getintattrelement (model : Option Nat) (attr : String) (ind : Int)
  | getcharattrelement (model : Option Nat) (attr : String) (ind : Int)
  | getdblattrelement (model : Option Nat) (attr : String) (ind : Int)
  | getstrattrelement (model : Option Nat) (attr : String) (ind : Int)
  | setintattrelement (model : Option Nat) (attr : String) (ind value : Int)
  | setcharattrelement (model : Option Nat) (attr : String) (ind value : Int)
  | setdblattrelement (model : Option Nat) (attr : String) (ind : Int)
      (value : GoFloat)
  | setstrattrelement (model : Option Nat) (attr : String) (ind : Int)
      (value : String)
deriving DecidableEq

/-- Oracle modelling the closed-source solver library: for each reified call
it yields the return code and the values the C side writes through
out-parameters.  `clean2` models `GRBclean2`, which rewrites the
length/index/value triple of AddConstr in place. -/
structure FFI where
  ret : FFICall → Int
  intOut : FFICall → Int
  dblOut : FFICall → GoFloat
  strOut : FFICall → String
  charOut : FFICall → Int
  envOut : FFICall → Option Nat
  modelOut : FFICall → Option Nat
  ptrOut : FFICall → Nat
  clean2 : Int × List Int × List GoFloat → Int × List Int × List GoFloat

/-- The environment wrapper: sole field is the `*C.GRBenv` handle. -/
structure Env where
  env : Option Nat
deriving DecidableEq

/-- Embedding of `Env.Check`: nil pointer or nil inner handle yields the
uninitialized-environment error, otherwise nil. -/
def Env.CheckE : Option Env → Option GoError
  | none => some .uninitializedEnv
  | some e => if e.env = none then some .uninitializedEnv else none

/-- Embedding of `Env.SetTimeLimit`: Check, then one GRBsetdblparam call on "TimeLimit".
Returns the Go error and the list of foreign calls performed. -/
def Env.SetTimeLimitE (o : FFI) (env : Option Env) (limitIn : GoFloat) :
    Option GoError × List FFICall :=
  match env with
  | none => (some .uninitializedEnv, [])
  | some e =>
    match e.env with
    | none => (some .uninitializedEnv, [])
    | some hdl =>
      let call := FFICall.setdblparam (some hdl) "TimeLimit" limitIn
      let errCode := o.ret call
      if errCode ≠ 0 then (some (.msgCode "GRBsetdblparam" errCode), [call])
      else (none, [call])

/-- Embedding of `Env.GetTimeLimit`: Check, then one GRBgetdblparam call on "TimeLimit";
on a check failure the returned value is -1.0. -/
def Env.GetTimeLimitE (o : FFI) (env : Option Env) :
    (GoFloat × Option GoError) × List FFICall :=
  match env with
  | none => ((-1, some .uninitializedEnv), [])
  | some e =>
    match e.env with
    | none => ((-1, some .uninitializedEnv), [])
    | some hdl =>
      let call := FFICall.getdblparam (some hdl) "TimeLimit"
      let errCode := o.ret call
      if errCode ≠ 0 then ((-1, some (.msgCode "GRBsetdblparam" errCode)), [call])
      else ((o.dblOut call, none), [call])

/-- The valid scalar double parameter names of `IsValidDBLParam`. -/
def scalarDoubleAttributes : List String :=
  ["TimeLimit", "Cutoff", "BestObjStop", "MIPGap", "Heuristics"]

/-- Embedding of `IsValidDBLParam`: linear scan of `scalarDoubleAttributes` for the given
name. -/
def IsValidDBLParam (paramName : String) : Bool :=
  scalarDoubleAttributes.any (fun validName => validName == paramName)

/-- Embedding of `Env.SetIntParam`: only a nil-pointer check (the inner handle is not
checked), then one GRBsetintparam call. -/
def Env.SetIntParamE (o : FFI) (env : Option Env) (paramName : String)
    (val : Int) : Option GoError × List FFICall :=
  match env with
  | none => (some .envNil, [])
  | some e =>
    let call := FFICall.setintparam e.env paramName val
    let errCode := o.ret call
    if errCode ≠ 0 then (some (.msgCode "GRBsetintparam" errCode), [call])
    else (none, [call])

/-- Embedding of `Env.SetDBLParam`: validates the parameter name, checks only that the
wrapper pointer is non-nil (the inner handle is passed through even when it
is nil), then one GRBsetdblparam call. -/
def Env.SetDBLParamE (o : FFI) (env : Option Env) (paramName : String)
    (val : GoFloat) : Option GoError × List FFICall :=
  if IsValidDBLParam paramName = false then (some (.invalidParam paramName), [])
  else
    match env with
    | none => (some .envNil, [])
    | some e =>
      let call := FFICall.setdblparam e.env paramName val
      let errcode := o.ret call
      if errcode ≠ 0 then (some (.msgCode "GRBsetdblparam" errcode), [call])
      else (none, [call])

/-- Embedding of `Env.GetDBLParam`: validates the parameter name, checks only that the
wrapper pointer is non-nil, then one GRBgetdblparam call; the value result is
-1 on every error path. -/
def Env.GetDBLParamE (o : FFI) (env : Option Env) (paramName : String) :
    (GoFloat × Option GoError) × List FFICall :=
  if IsValidDBLParam paramName = false then
    ((-1, some (.invalidParam paramName)), [])
  else
    match env with
    | none => ((-1, some .envNil), [])
    | some e =>
      let call := FFICall.getdblparam e.env paramName
      let errcode := o.ret call
      if errcode ≠ 0 then ((-1, some (.msgCode "GRBgetdblparam" errcode)), [call])
      else ((o.dblOut call, none), [call])

/-- Embedding of `Env.SetStringParam`: Check, then one GRBsetstrparam call. -/
def Env.SetStringParamE (o : FFI) (env : Option Env) (param newvalue : String) :
    Option GoError × List FFICall :=
  match env with
  | none => (some .uninitializedEnv, [])
  | some e =>
    match e.env with
    | none => (some .uninitializedEnv, [])
    | some hdl =>
      let call := FFICall.setstrparam (some hdl) param newvalue
      let errCode := o.ret call
      if errCode ≠ 0 then (some (.msgCode "GRBsetstrparam" errCode), [call])
      else (none, [call])

/-- Modelled from the spec: the `Var` handle struct is used throughout
model.go (constructed from the model pointer and an int32 index, and read through its
`Index` field) but its declaration is not among the provided sources; per the
spec it is a lightweight handle carrying only a back-reference to the owning
model (a pointer, embedded as a pointer identity) and an int32 index. -/
structure Var where
  model : Nat
  Index : Int
deriving DecidableEq

/-- Modelled from the spec: the `Constr` handle struct, analogous to `Var`
(constructed as a model back-reference plus int32 index, read through
`Index`); its declaration is not among the provided sources. -/
structure Constr where
  model : Nat
  Index : Int
deriving DecidableEq

/-- The model wrapper: the `*C.GRBmodel` handle, the environment (held by
value), and the cached handle lists.  The extra `id` field is the pointer
identity of the Go `*Model` itself, used for the back-references stored in
the handles it creates. -/
structure Model where
  AsGRBModel : Option Nat
  Env : Env
  Variables : List Var
  Constraints : List Constr
  id : Nat
deriving DecidableEq

/-- Embedding of `Model.Check`: nil pointer gives the model uninitialized error, then the
embedded environment is checked (its receiver `&model.Env` is never nil). -/
def Model.CheckE : Option Model → Option GoError
  | none => some .uninitializedModel
  | some m => Env.CheckE (some m.Env)

/-- Embedding of `NewModel`: env Check, GRBnewmodel, then GRBgetenv on the fresh model
handle; the returned wrapper starts with empty cached lists. -/
def NewModelE (o : FFI) (modelname : String) (env : Option Env) :
    Option Model × Option GoError :=
  match env with
  | none => (none, some .uninitializedEnv)
  | some e =>
    match e.env with
    | none => (none, some .uninitializedEnv)
    | some hdl =>
      let call := FFICall.newmodel (some hdl) modelname
      let errcode := o.ret call
      if errcode ≠ 0 then (none, some (.grb errcode))
      else
        let modelHdl := o.modelOut call
        match o.envOut (FFICall.getenvOf modelHdl) with
        | none => (none, some .failedRetrieveEnv)
        | some newenv =>
          (some ⟨modelHdl, ⟨some newenv⟩, [], [], o.ptrOut call⟩, none)

/-- Embedding of `LoadModel`: like NewModel but through GRBreadmodel. -/
def LoadModelE (o : FFI) (modelPath : String) (env : Option Env) :
    Option Model × Option GoError :=
  match env with
  | none => (none, some .uninitializedEnv)
  | some e =>
    match e.env with
    | none => (none, some .uninitializedEnv)
    | some hdl =>
      let call := FFICall.readmodel (some hdl) modelPath
      let errcode := o.ret call
      if errcode ≠ 0 then (none, some (.grb errcode))
      else
        let modelHdl := o.modelOut call
        match o.envOut (FFICall.getenvOf modelHdl) with
        | none => (none, some .failedRetrieveEnv)
        | some newenv =>
          (some ⟨modelHdl, ⟨some newenv⟩, [], [], o.ptrOut call⟩, none)

/-- Embedding of `Model.Update`: nil check then one GRBupdatemodel call. -/
def Model.UpdateE (o : FFI) (mo : Option Model) : Option GoError :=
  match mo with
  | none => some .emptyMessage
  | some m =>
    let code := o.ret (FFICall.updatemodel m.AsGRBModel)
    if code ≠ 0 then some (.grb code) else none

/-- Embedding of `Model.AddVar`: Check, lengths of constrs and columns must agree, indices
must be nonnegative, one GRBaddvar call, Update, then the new handle (with
index = previous cache length) is appended to `Variables` and returned. -/
def Model.AddVarE (o : FFI) (mo : Option Model) (vtype : Int)
    (obj lb ub : GoFloat) (name : String) (constrs : List Constr)
    (columns : List GoFloat) : GoResult (Model × Var) :=
  match mo with
  | none => .err .uninitializedModel
  | some m =>
    if m.Env.env = none then .err .uninitializedEnv
    else if constrs.length ≠ columns.length then
      .err (.msg "either the length of constrs or columns are wrong")
    else if constrs.any (fun c => decide (c.Index < 0)) then
      .err (.msg "Invalid index in constrs")
    else
      let ind := constrs.map (fun c => c.Index)
      let call := FFICall.addvar m.AsGRBModel constrs.length ind columns
        obj lb ub vtype name
      let errCode := o.ret call
      if errCode ≠ 0 then .err (.grb errCode)
      else
        match Model.UpdateE o (some m) with
        | some e => .err e
        | none =>
          let v : Var := ⟨m.id, (m.Variables.length : Int)⟩
          .ok ({ m with Variables := m.Variables ++ [v] }, v)

/-- Sum of the lengths of the inner lists: the `numnz` accumulation loops of
AddVars and AddConstrs. -/
def numnzOf {α : Type} (ls : List (List α)) : Nat :=
  (ls.map List.length).sum

/-- The CSR flattening loop shared (textually duplicated) by AddVars and
AddConstrs: walking the rows with a running offset `k`, it records `k` in
`beg`, appends the handle indices of the row to `ind` and its coefficients
to `val`, erroring on a row length mismatch or a negative handle index, and
panicking when the coefficient outer list is shorter than the handle outer
list (the source reads `columns[i]` for every row `i` of `constrs`). -/
def csrFlatten {α : Type} (idx : α → Int) :
    Nat → List (List α) → List (List GoFloat) →
    GoResult (List Nat × List Int × List GoFloat)
  | _, [], _ => .ok ([], [], [])
  | _, _ :: _, [] => .panicked
  | k, c :: cs, col :: cols =>
    if c.length ≠ col.length then .err .emptyMessage
    else if c.any (fun a => decide (idx a < 0)) then .err .emptyMessage
    else
      match csrFlatten idx (k + c.length) cs cols with
      | .ok (begs, inds, vals) => .ok (k :: begs, c.map idx ++ inds, col ++ vals)
      | .err e => .err e
      | .panicked => .panicked

/-- Write into a Go slice at a checked position: `none` models the
index-out-of-range panic. -/
def setChecked {α : Type} : List α → Nat → α → Option (List α)
  | [], _, _ => none
  | _ :: xs, 0, a => some (a :: xs)
  | x :: xs, n + 1, a => (setChecked xs n a).map (fun ys => x :: ys)

/-- The bulk result-collection loop of AddVars and AddConstrs: for
`i := start; i < start + cnt; i++` it appends `mk (int32 i)` to the cached
list and stores a pointer to it at position `i` of the result slice
(`vars[i] = ...`); `none` models the out-of-range panic of that store. -/
def bulkAppendAt {β : Type} (mk : Int → β) :
    Nat → Nat → List β → List (Option β) → Option (List β × List (Option β))
  | _, 0, cache, res => some (cache, res)
  | i, cnt + 1, cache, res =>
    let b := mk (i : Int)
    match setChecked res i (some b) with
    | none => none
    | some res1 => bulkAppendAt mk (i + 1) cnt (cache ++ [b]) res1

/-- The bulk result-collection loop of AddVarsWithTypes and
AddVarsWithoutTypes: same appends, but the store is `vars[i-xcols] = ...`. -/
def bulkAppendShifted {β : Type} (mk : Int → β) (xcols : Nat) :
    Nat → Nat → List β → List (Option β) → Option (List β × List (Option β))
  | _, 0, cache, res => some (cache, res)
  | i, cnt + 1, cache, res =>
    let b := mk (i : Int)
    match setChecked res (i - xcols) (some b) with
    | none => none
    | some res1 => bulkAppendShifted mk xcols (i + 1) cnt (cache ++ [b]) res1

/-- Embedding of `Model.AddVars_InputChecking`: model Check (any failure is reported as
the model uninitialized error), then the pairwise length checks; the checks
against `constrs` and `columns` only run when `constrs` is non-empty. -/
def Model.AddVars_InputCheckingE (mo : Option Model) (vtypes : List Int)
    (objs lbs ubs : List GoFloat) (names : List String)
    (constrs : List (List Constr)) (columns : List (List GoFloat)) :
    Option GoError :=
  match Model.CheckE mo with
  | some _ => some .uninitializedModel
  | none =>
    if vtypes.length ≠ objs.length then
      some (.mismatchedLength vtypes.length objs.length "vtypes" "objs")
    else if objs.length ≠ lbs.length then
      some (.mismatchedLength objs.length lbs.length "objs" "lbs")
    else if lbs.length ≠ ubs.length then
      some (.mismatchedLength lbs.length ubs.length "lbs" "ubs")
    else if ubs.length ≠ names.length then
      some (.mismatchedLength ubs.length names.length "ubs" "names")
    else if 0 < constrs.length then
      if names.length ≠ constrs.length then
        some (.mismatchedLength names.length constrs.length "names" "constrs")
      else if constrs.length ≠ columns.length then
        some (.mismatchedLength constrs.length columns.length "constrs" "columns")
      else none
    else none

/-- Embedding of `Model.AddVars`: input checking, numnz accumulation and CSR flattening,
one GRBaddvars call, Update, then the bulk append loop which stores the new
handles at positions `xcols ..` of the length-`len vtypes` result slice. -/
def Model.AddVarsE (o : FFI) (mo : Option Model) (vtypes : List Int)
    (objs lbs ubs : List GoFloat) (names : List String)
    (constrs : List (List Constr)) (columns : List (List GoFloat)) :
    GoResult (Model × List (Option Var)) :=
  match mo with
  | none => .err .uninitializedModel
  | some m =>
    match Model.AddVars_InputCheckingE (some m) vtypes objs lbs ubs names
        constrs columns with
    | some e => .err e
    | none =>
      let numnz := numnzOf constrs
      match csrFlatten (fun c : Constr => c.Index) 0 constrs columns with
      | .err e => .err e
      | .panicked => .panicked
      | .ok (beg, ind, val) =>
        let call := FFICall.addvars m.AsGRBModel vtypes.length numnz
          beg ind val objs lbs ubs vtypes names
        let errCode := o.ret call
        if errCode ≠ 0 then .err (.grb errCode)
        else
          match Model.UpdateE o (some m) with
          | some e => .err e
          | none =>
            let xcols := m.Variables.length
            match bulkAppendAt (fun z => (⟨m.id, z⟩ : Var)) xcols
                vtypes.length m.Variables
                (List.replicate vtypes.length none) with
            | none => .panicked
            | some (cache, vars) =>
              .ok ({ m with Variables := cache }, vars)

/-- Embedding of `Model.AddVarsWithTypes`: no model Check; `make` with a negative count
panics, taking the address of the first element of an empty slice panics,
and a nil model pointer is dereferenced for the foreign call; then
GRBaddvars, Update, and the shifted bulk append loop. -/
def Model.AddVarsWithTypesE (o : FFI) (mo : Option Model) (count : Int)
    (vtype : Int) : GoResult (Model × List (Option Var)) :=
  if count < 0 then .panicked
  else if count = 0 then .panicked
  else
    match mo with
    | none => .panicked
    | some m =>
      let cnt := count.toNat
      let vtypes := List.replicate cnt vtype
      let call := FFICall.addvars m.AsGRBModel cnt 0 [] [] [] [] [] [] vtypes []
      let errCode := o.ret call
      if errCode ≠ 0 then .err (.grb errCode)
      else
        match Model.UpdateE o (some m) with
        | some e => .err e
        | none =>
          let xcols := m.Variables.length
          match bulkAppendShifted (fun z => (⟨m.id, z⟩ : Var)) xcols xcols
              cnt m.Variables (List.replicate cnt none) with
          | none => .panicked
          | some (cache, vars) =>
            .ok ({ m with Variables := cache }, vars)

/-- Embedding of `Model.AddVarsWithoutTypes`: no model Check and no length check between
`lbs` and `ubs`; taking the address of the first element of an empty `lbs`
panics, and a nil model pointer is dereferenced for the foreign call; then
GRBaddvars, Update, and the shifted bulk append loop over `len lbs`. -/
def Model.AddVarsWithoutTypesE (o : FFI) (mo : Option Model)
    (lbs ubs : List GoFloat) : GoResult (Model × List (Option Var)) :=
  if lbs.length = 0 then .panicked
  else
    match mo with
    | none => .panicked
    | some m =>
      let call := FFICall.addvars m.AsGRBModel lbs.length 0 [] [] [] [] lbs ubs [] []
      let errCode := o.ret call
      if errCode ≠ 0 then .err (.grb errCode)
      else
        match Model.UpdateE o (some m) with
        | some e => .err e
        | none =>
          let xcols := m.Variables.length
          match bulkAppendShifted (fun z => (⟨m.id, z⟩ : Var)) xcols xcols
              lbs.length m.Variables (List.replicate lbs.length none) with
          | none => .panicked
          | some (cache, vars) =>
            .ok ({ m with Variables := cache }, vars)

/-- Embedding of `Model.AddConstr`: Check (any failure reported as the model
uninitialized error), nonnegative index check over `vars`, address-taking of
`val[0]` when `vars` is non-empty (panics when `val` is empty), GRBclean2 on
the length/index/value triple, one GRBaddconstr call, Update, then the new
handle is appended to `Constraints` and returned. -/
def Model.AddConstrE (o : FFI) (mo : Option Model) (vars : List Var)
    (val : List GoFloat) (sense : Int) (rhs : GoFloat) (constrname : String) :
    GoResult (Model × Constr) :=
  match mo with
  | none => .err .uninitializedModel
  | some m =>
    if m.Env.env = none then .err .uninitializedModel
    else if vars.any (fun v => decide (v.Index < 0)) then
      .err (.msg "Invalid vars")
    else if 0 < vars.length ∧ val.length = 0 then .panicked
    else
      let ind := vars.map (fun v => v.Index)
      let cleaned := o.clean2 ((ind.length : Int), ind, val)
      let call := FFICall.addconstr m.AsGRBModel cleaned.1 cleaned.2.1
        cleaned.2.2 sense rhs constrname
      let errCode := o.ret call
      if errCode ≠ 0 then .err (.grb errCode)
      else
        match Model.UpdateE o (some m) with
        | some e => .err e
        | none =>
          let c : Constr := ⟨m.id, (m.Constraints.length : Int)⟩
          .ok ({ m with Constraints := m.Constraints ++ [c] }, c)

/-- Embedding of `Model.InputChecking_AddConstrs`: model Check (any failure is reported
as the model uninitialized error), then the four pairwise length checks
vars/vals/senses/rhs/constrnames. -/
def Model.InputChecking_AddConstrsE (mo : Option Model)
    (vars : List (List Var)) (vals : List (List GoFloat)) (senses : List Int)
    (rhs : List GoFloat) (constrnames : List String) : Option GoError :=
  match Model.CheckE mo with
  | some _ => some .uninitializedModel
  | none =>
    if vars.length ≠ vals.length then
      some (.mismatchedLength vars.length vals.length "vars" "vals")
    else if vals.length ≠ senses.length then
      some (.mismatchedLength vals.length senses.length "vals" "senses")
    else if senses.length ≠ rhs.length then
      some (.mismatchedLength senses.length rhs.length "senses" "rhs")
    else if rhs.length ≠ constrnames.length then
      some (.mismatchedLength rhs.length constrnames.length "rhs" "constrnames")
    else none

/-- Embedding of `Model.AddConstrs`: Check (reported as the model uninitialized error),
input checking, numnz accumulation and CSR flattening over `vars`/`vals`,
one GRBaddconstrs call, Update, then the bulk append loop which stores the
new handles at positions `xrows ..` of the length-`len constrnames` result
slice. -/
def Model.AddConstrsE (o : FFI) (mo : Option Model) (vars : List (List Var))
    (vals : List (List GoFloat)) (senses : List Int) (rhs : List GoFloat)
    (constrnames : List String) : GoResult (Model × List (Option Constr)) :=
  match mo with
  | none => .err .uninitializedModel
  | some m =>
    if m.Env.env = none then .err .uninitializedModel
    else
      match Model.InputChecking_AddConstrsE (some m) vars vals senses rhs
          constrnames with
      | some e => .err e
      | none =>
        let numnz := numnzOf vars
        match csrFlatten (fun v : Var => v.Index) 0 vars vals with
        | .err e => .err e
        | .panicked => .panicked
        | .ok (beg, ind, flatvals) =>
          let call := FFICall.addconstrs m.AsGRBModel constrnames.length numnz
            beg ind flatvals senses rhs constrnames
          let errCode := o.ret call
          if errCode ≠ 0 then .err (.grb errCode)
          else
            match Model.UpdateE o (some m) with
            | some e => .err e
            | none =>
              let xrows := m.Constraints.length
              match bulkAppendAt (fun z => (⟨m.id, z⟩ : Constr)) xrows
                  constrnames.length m.Constraints
                  (List.replicate constrnames.length none) with
              | none => .panicked
              | some (cache, constrs) =>
                .ok ({ m with Constraints := cache }, constrs)

/-- Embedding of `Model.Optimize`: nil check, then one GRBoptimize call. -/
def Model.OptimizeE (o : FFI) (mo : Option Model) : Option GoError :=
  match mo with
  | none => some .emptyMessage
  | some m =>
    let code := o.ret (FFICall.optimize m.AsGRBModel)
    if code ≠ 0 then some (.grb code) else none

/-- Embedding of `Model.Write`: nil check, then one GRBwrite call. -/
def Model.WriteE (o : FFI) (mo : Option Model) (filename : String) :
    Option GoError :=
  match mo with
  | none => some .emptyMessage
  | some m =>
    let code := o.ret (FFICall.write m.AsGRBModel filename)
    if code ≠ 0 then some (.grb code) else none

/-- Embedding of `Model.GetIntAttr`: nil check, then one GRBgetintattr call;
the out-parameter value is returned on success and 0 on error. -/
def Model.GetIntAttrE (o : FFI) (mo : Option Model) (attrname : String) :
    Int × Option GoError :=
  match mo with
  | none => (0, some .emptyMessage)
  | some m =>
    let call := FFICall.getintattr m.AsGRBModel attrname
    let code := o.ret call
    if code ≠ 0 then (0, some (.grb code)) else (o.intOut call, none)

/-- Embedding of `Model.GetDoubleAttr`: nil check, then one GRBgetdblattr
call. -/
def Model.GetDoubleAttrE (o : FFI) (mo : Option Model) (attrname : String) :
    GoFloat × Option GoError :=
  match mo with
  | none => (0, some .emptyMessage)
  | some m =>
    let call := FFICall.getdblattr m.AsGRBModel attrname
    let code := o.ret call
    if code ≠ 0 then (0, some (.grb code)) else (o.dblOut call, none)

/-- Embedding of `Model.GetStringAttr`: nil check, then one GRBgetstrattr
call. -/
def Model.GetStringAttrE (o : FFI) (mo : Option Model) (attrname : String) :
    String × Option GoError :=
  match mo with
  | none => ("", some .emptyMessage)
  | some m =>
    let call := FFICall.getstrattr m.AsGRBModel attrname
    let code := o.ret call
    if code ≠ 0 then ("", some (.grb code)) else (o.strOut call, none)

/-- Embedding of `Model.SetIntAttr`: nil check, then one GRBsetintattr call. -/
def Model.SetIntAttrE (o : FFI) (mo : Option Model) (attrname : String)
    (value : Int) : Option GoError :=
  match mo with
  | none => some .emptyMessage
  | some m =>
    let code := o.ret (FFICall.setintattr m.AsGRBModel attrname value)
    if code ≠ 0 then some (.grb code) else none

/-- Embedding of `Model.SetDoubleAttr`: nil check, then one GRBsetdblattr
call. -/
def Model.SetDoubleAttrE (o : FFI) (mo : Option Model) (attrname : String)
    (value : GoFloat) : Option GoError :=
  match mo with
  | none => some .emptyMessage
  | some m =>
    let code := o.ret (FFICall.setdblattr m.AsGRBModel attrname value)
    if code ≠ 0 then some (.grb code) else none

/-- Embedding of `Model.SetStringAttr`: nil check, then one GRBsetstrattr
call. -/
def Model.SetStringAttrE (o : FFI) (mo : Option Model) (attrname value : String) :
    Option GoError :=
  match mo with
  | none => some .emptyMessage
  | some m =>
    let code := o.ret (FFICall.setstrattr m.AsGRBModel attrname value)
    if code ≠ 0 then some (.grb code) else none

/-- Embedding of `Model.getIntAttrElement`: nil check (reported as the model
uninitialized error), then one GRBgetintattrelement call. -/
def Model.getIntAttrElementE (o : FFI) (mo : Option Model) (attr : String)
    (ind : Int) : Int × Option GoError :=
  match mo with
  | none => (0, some .uninitializedModel)
  | some m =>
    let call := FFICall.getintattrelement m.AsGRBModel attr ind
    let code := o.ret call
    if code ≠ 0 then (0, some (.grb code)) else (o.intOut call, none)

/-- Embedding of `Model.getCharAttrElement`: nil check, then one
GRBgetcharattrelement call. -/
def Model.getCharAttrElementE (o : FFI) (mo : Option Model) (attr : String)
    (ind : Int) : Int × Option GoError :=
  match mo with
  | none => (0, some .emptyMessage)
  | some m =>
    let call := FFICall.getcharattrelement m.AsGRBModel attr ind
    let code := o.ret call
    if code ≠ 0 then (0, some (.grb code)) else (o.charOut call, none)

/-- Embedding of `Model.getDoubleAttrElement`: nil check, then one
GRBgetdblattrelement call. -/
def Model.getDoubleAttrElementE (o : FFI) (mo : Option Model) (attr : String)
    (ind : Int) : GoFloat × Option GoError :=
  match mo with
  | none => (0, some .emptyMessage)
  | some m =>
    let call := FFICall.getdblattrelement m.AsGRBModel attr ind
    let code := o.ret call
    if code ≠ 0 then (0, some (.grb code)) else (o.dblOut call, none)

/-- Embedding of `Model.getStringAttrElement`: nil check, then one
GRBgetstrattrelement call. -/
def Model.getStringAttrElementE (o : FFI) (mo : Option Model) (attr : String)
    (ind : Int) : String × Option GoError :=
  match mo with
  | none => ("", some .emptyMessage)
  | some m =>
    let call := FFICall.getstrattrelement m.AsGRBModel attr ind
    let code := o.ret call
    if code ≠ 0 then ("", some (.grb code)) else (o.strOut call, none)

/-- Embedding of `Model.setIntAttrElement`: nil check, then one
GRBsetintattrelement call. -/
def Model.setIntAttrElementE (o : FFI) (mo : Option Model) (attr : String)
    (ind value : Int) : Option GoError :=
  match mo with
  | none => some .emptyMessage
  | some m =>
    let code := o.ret (FFICall.setintattrelement m.AsGRBModel attr ind value)
    if code ≠ 0 then some (.grb code) else none

/-- Embedding of `Model.setCharAttrElement`: nil check, then one
GRBsetcharattrelement call. -/
def Model.setCharAttrElementE (o : FFI) (mo : Option Model) (attr : String)
    (ind value : Int) : Option GoError :=
  match mo with
  | none => some .emptyMessage
  | some m =>
    let code := o.ret (FFICall.setcharattrelement m.AsGRBModel attr ind value)
    if code ≠ 0 then some (.grb code) else none

/-- Embedding of `Model.setDoubleAttrElement`: nil check, then one
GRBsetdblattrelement call. -/
def Model.setDoubleAttrElementE (o : FFI) (mo : Option Model) (attr : String)
    (ind : Int) (value : GoFloat) : Option GoError :=
  match mo with
  | none => some .emptyMessage
  | some m =>
    let code := o.ret (FFICall.setdblattrelement m.AsGRBModel attr ind value)
    if code ≠ 0 then some (.grb code) else none

/-- Embedding of `Model.setStringAttrElement`: nil check, then one
GRBsetstrattrelement call. -/
def Model.setStringAttrElementE (o : FFI) (mo : Option Model) (attr : String)
    (ind : Int) (value : String) : Option GoError :=
  match mo with
  | none => some .emptyMessage
  | some m =>
    let code := o.ret (FFICall.setstrattrelement m.AsGRBModel attr ind value)
    if code ≠ 0 then some (.grb code) else none

/-- The linear expression builder of expr.go: parallel lists of variable
handles and coefficients plus a constant offset. -/
structure LinExpr where
  Ind : List Var
  Val : List GoFloat
  Offset : GoFloat
deriving DecidableEq

/-- Embedding of `LinExpr.AddTerm`: appends one handle to `Ind` and one
coefficient to `Val`. -/
def LinExpr.AddTerm (expr : LinExpr) (v : Var) (c : GoFloat) : LinExpr :=
  { expr with Ind := expr.Ind ++ [v], Val := expr.Val ++ [c] }

/-- Embedding of `LinExpr.AddConstant`: adds to `Offset` only. -/
def LinExpr.AddConstant (expr : LinExpr) (c : GoFloat) : LinExpr :=
  { expr with Offset := expr.Offset + c }

/-- The quadratic expression builder of expr.go: linear part `lind`/`lval`,
quadratic part `qrow`/`qcol`/`qval`, and a constant offset. -/
structure QuadExpr where
  lind : List Var
  lval : List GoFloat
  qrow : List Var
  qcol : List Var
  qval : List GoFloat
  offset : GoFloat
deriving DecidableEq

/-- Embedding of `QuadExpr.AddTerm`: appends one handle to `lind` and one
coefficient to `lval`. -/
def QuadExpr.AddTerm (expr : QuadExpr) (v : Var) (c : GoFloat) : QuadExpr :=
  { expr with lind := expr.lind ++ [v], lval := expr.lval ++ [c] }

/-- Embedding of `QuadExpr.AddQTerm`: appends one handle to each of `qrow`
and `qcol` and one coefficient to `qval`. -/
def QuadExpr.AddQTerm (expr : QuadExpr) (v1 v2 : Var) (c : GoFloat) : QuadExpr :=
  { expr with qrow := expr.qrow ++ [v1], qcol := expr.qcol ++ [v2],
              qval := expr.qval ++ [c] }

/-- Embedding of `QuadExpr.AddConstant`: adds to `offset` only. -/
def QuadExpr.AddConstant (expr : QuadExpr) (c : GoFloat) : QuadExpr :=
  { expr with offset := expr.offset + c }

/-- One call of the LinExpr builder interface. -/
inductive LinOp where
  | addTerm (v : Var) (c : GoFloat)
  | addConstant (c : GoFloat)
deriving DecidableEq

/-- Application of one LinExpr builder call. -/
def LinExpr.applyOp (expr : LinExpr) : LinOp → LinExpr
  | .addTerm v c => expr.AddTerm v c
  | .addConstant c => expr.AddConstant c

/-- Application of a sequence of LinExpr builder calls, first call first. -/
def LinExpr.applyOps (expr : LinExpr) (ops : List LinOp) : LinExpr :=
  ops.foldl LinExpr.applyOp expr

/-- One call of the QuadExpr builder interface. -/
inductive QuadOp where
  | addTerm (v : Var) (c : GoFloat)
  | addQTerm (v1 v2 : Var) (c : GoFloat)
  | addConstant (c : GoFloat)
deriving DecidableEq

/-- Application of one QuadExpr builder call. -/
def QuadExpr.applyOp (expr : QuadExpr) : QuadOp → QuadExpr
  | .addTerm v c => expr.AddTerm v c
  | .addQTerm v1 v2 c => expr.AddQTerm v1 v2 c
  | .addConstant c => expr.AddConstant c

/-- Application of a sequence of QuadExpr builder calls, first call first. -/
def QuadExpr.applyOps (expr : QuadExpr) (ops : List QuadOp) : QuadExpr :=
  ops.foldl QuadExpr.applyOp expr

/-- Shape invariant of a LinExpr: the handle and coefficient lists stay
parallel. -/
def LinExpr.wf (expr : LinExpr) : Prop :=
  expr.Ind.length = expr.Val.length

/-- Shape invariant of a QuadExpr: linear lists parallel, quadratic triple
parallel. -/
def QuadExpr.wf (expr : QuadExpr) : Prop :=
  expr.lind.length = expr.lval.length ∧
  expr.qrow.length = expr.qcol.length ∧
  expr.qcol.length = expr.qval.length

/-- The models reachable from a successful `NewModel` by successful bulk and
single add operations (any oracle, any arguments at every step). -/
inductive ReachableModel : Model → Prop where
  | newmodel (o : FFI) (modelname : String) (env : Option Env) (m : Model)
      (h : NewModelE o modelname env = (some m, none)) : ReachableModel m
  | addVar (o : FFI) (m : Model) (vtype : Int) (obj lb ub : GoFloat)
      (name : String) (constrs : List Constr) (columns : List GoFloat)
      (m1 : Model) (v : Var) (hm : ReachableModel m)
      (h : Model.AddVarE o (some m) vtype obj lb ub name constrs columns =
        .ok (m1, v)) : ReachableModel m1
  | addVars (o : FFI) (m : Model) (vtypes : List Int)
      (objs lbs ubs : List GoFloat) (names : List String)
      (constrs : List (List Constr)) (columns : List (List GoFloat))
      (m1 : Model) (vs : List (Option Var)) (hm : ReachableModel m)
      (h : Model.AddVarsE o (some m) vtypes objs lbs ubs names constrs
        columns = .ok (m1, vs)) : ReachableModel m1
  | addVarsWithTypes (o : FFI) (m : Model) (count : Int) (vtype : Int)
      (m1 : Model) (vs : List (Option Var)) (hm : ReachableModel m)
      (h : Model.AddVarsWithTypesE o (some m) count vtype = .ok (m1, vs)) :
      ReachableModel m1
  | addVarsWithoutTypes (o : FFI) (m : Model) (lbs ubs : List GoFloat)
      (m1 : Model) (vs : List (Option Var)) (hm : ReachableModel m)
      (h : Model.AddVarsWithoutTypesE o (some m) lbs ubs = .ok (m1, vs)) :
      ReachableModel m1
  | addConstr (o : FFI) (m : Model) (vars : List Var) (val : List GoFloat)
      (sense : Int) (rhs : GoFloat) (constrname : String) (m1 : Model)
      (c : Constr) (hm : ReachableModel m)
      (h : Model.AddConstrE o (some m) vars val sense rhs constrname =
        .ok (m1, c)) : ReachableModel m1
  | addConstrs (o : FFI) (m : Model) (vars : List (List Var))
      (vals : List (List GoFloat)) (senses : List Int) (rhs : List GoFloat)
      (constrnames : List String) (m1 : Model) (cs : List (Option Constr))
      (hm : ReachableModel m)
      (h : Model.AddConstrsE o (some m) vars vals senses rhs constrnames =
        .ok (m1, cs)) : ReachableModel m1

/-- Concrete all-zero oracle: every foreign call succeeds with return code 0
and writes default values; used to instantiate witnesses. -/
def ffi0 : FFI where
  ret := fun _ => 0
  intOut := fun _ => 0
  dblOut := fun _ => 0
  strOut := fun _ => ""
  charOut := fun _ => 0
  envOut := fun _ => some 1
  modelOut := fun _ => some 1
  ptrOut := fun _ => 1
  clean2 := fun t => t

/-- A concrete well-formed model with empty caches. -/
def m0 : Model := ⟨some 1, ⟨some 1⟩, [], [], 1⟩

/-- A concrete well-formed model whose variable cache already holds one
handle. -/
def m1 : Model := ⟨some 1, ⟨some 1⟩, [⟨1, 0⟩], [], 1⟩

/-- A concrete well-formed model whose constraint cache already holds one
handle. -/
def m1c : Model := ⟨some 1, ⟨some 1⟩, [], [⟨1, 0⟩], 1⟩

/-- The `beg` array produced by the CSR loop: the running offset at the
start of each row. -/
def begList {α : Type} : Nat → List (List α) → List Nat
  | _, [] => []
  | k, c :: cs => k :: begList (k + c.length) cs

lemma begList_length {α : Type} :
    ∀ (ls : List (List α)) (k : Nat), (begList k ls).length = ls.length := by
  intro ls
  induction ls with
  | nil => intro k; rfl
  | cons c cs ih => intro k; simp [begList, ih]

lemma begList_getElem? {α : Type} :
    ∀ (ls : List (List α)) (k i : Nat), i < ls.length →
      (begList k ls)[i]? = some (k + numnzOf (ls.take i)) := by
  intro ls
  induction ls with
  | nil => intro k i h; simp at h
  | cons c cs ih =>
    intro k i h
    cases i with
    | zero => simp [begList, numnzOf]
    | succ i =>
      have := ih (k + c.length) i (by simpa using h)
      simp only [begList, List.getElem?_cons_succ, this, List.take_succ_cons]
      simp [numnzOf]
      omega

lemma forall₂_map_length {α β : Type} {l1 : List (List α)} {l2 : List (List β)}
    (h : List.Forall₂ (fun (c : List α) (col : List β) =>
      c.length = col.length) l1 l2) :
    l1.map List.length = l2.map List.length := by
  induction h with
  | nil => rfl
  | cons hlen _ ih => simp [hlen, ih]

lemma numnzOf_take_of_map_length_eq {α β : Type} {l1 : List (List α)}
    {l2 : List (List β)} (h : l1.map List.length = l2.map List.length)
    (i : Nat) : numnzOf (l1.take i) = numnzOf (l2.take i) := by
  simp [numnzOf, List.map_take, h]

lemma numnzOf_map_map {α : Type} (idx : α → Int) (ls : List (List α)) :
    numnzOf (ls.map (fun c => c.map idx)) = numnzOf ls := by
  induction ls with
  | nil => rfl
  | cons c cs ih => simp [numnzOf] at ih ⊢; omega

lemma flatten_getElem? {α : Type} :
    ∀ (ls : List (List α)) (i j : Nat) (l : List α) (x : α),
      ls[i]? = some l → l[j]? = some x →
      ls.flatten[numnzOf (ls.take i) + j]? = some x := by
  intro ls
  induction ls with
  | nil => intro i j l x h; simp at h
  | cons hd tl ih =>
    intro i j l x hi hj
    cases i with
    | zero =>
      simp only [List.getElem?_cons_zero, Option.some.injEq] at hi
      subst hi
      obtain ⟨hjlt, -⟩ := List.getElem?_eq_some.mp hj
      have happ : (hd ++ tl.flatten)[j]? = hd[j]? :=
        List.getElem?_append_left hjlt
      simpa [numnzOf] using happ.trans hj
    | succ i =>
      simp only [List.getElem?_cons_succ] at hi
      have hrec := ih i j l x hi hj
      have harith : numnzOf ((hd :: tl).take (i + 1)) + j =
          hd.length + (numnzOf (tl.take i) + j) := by
        simp [numnzOf]; omega
      rw [List.flatten_cons, harith,
        List.getElem?_append_right (by omega : hd.length ≤ hd.length + (numnzOf (tl.take i) + j))]
      simpa using hrec

lemma csrFlatten_ok {α : Type} (idx : α → Int) :
    ∀ (constrs : List (List α)) (columns : List (List GoFloat)) (k : Nat),
      List.Forall₂ (fun (c : List α) (col : List GoFloat) =>
        c.length = col.length) constrs columns →
      (∀ row ∈ constrs, ∀ x ∈ row, 0 ≤ idx x) →
      csrFlatten idx k constrs columns =
        .ok (begList k constrs, (constrs.map (fun c => c.map idx)).flatten,
          columns.flatten) := by
  intro constrs columns k h hpos
  induction h generalizing k with
  | nil => simp [csrFlatten, begList]
  | @cons c col cs cols hlen htail ih =>
    have hposc : ∀ x ∈ c, 0 ≤ idx x := hpos c (by simp)
    have hany : c.any (fun a => decide (idx a < 0)) = false := by
      rw [Bool.eq_false_iff]
      intro hTrue
      rw [List.any_eq_true] at hTrue
      obtain ⟨x, hx, hdec⟩ := hTrue
      rw [decide_eq_true_eq] at hdec
      exact absurd hdec (not_lt.mpr (hposc x hx))
    have ihk := ih (k + c.length) (fun row hr => hpos row (List.mem_cons_of_mem _ hr))
    rw [hlen] at ihk
    simp [csrFlatten, hlen, hany, ihk, begList]

/-- C1: for every call to AddVars (and analogously AddConstrs) whose nested
handle rows and coefficient rows have matching shapes (and whose handles
carry valid nonnegative indices), the shared flattening step builds
contiguous CSR arrays: the index and value arrays have length numnz = the
sum of the inner lengths, beg has one entry per row holding the sum of the
lengths of the previous rows, and entry beg[i]+j of the index (resp. value)
array is the index of the j-th handle (resp. the j-th coefficient) of
row i. -/
theorem csr_flattening_spec {α : Type} (idx : α → Int)
    (constrs : List (List α)) (columns : List (List GoFloat))
    (hshape : List.Forall₂ (fun (c : List α) (col : List GoFloat) =>
      c.length = col.length) constrs columns)
    (hpos : ∀ row ∈ constrs, ∀ x ∈ row, 0 ≤ idx x) :
    ∃ beg ind val,
      csrFlatten idx 0 constrs columns = .ok (beg, ind, val) ∧
      ind.length = numnzOf constrs ∧
      val.length = numnzOf constrs ∧
      beg.length = constrs.length ∧
      (∀ i, i < constrs.length → beg[i]? = some (numnzOf (constrs.take i))) ∧
      (∀ i j ci x, constrs[i]? = some ci → ci[j]? = some x →
        ind[numnzOf (constrs.take i) + j]? = some (idx x)) ∧
      (∀ i j coli y, columns[i]? = some coli → coli[j]? = some y →
        val[numnzOf (constrs.take i) + j]? = some y) := by
  refine ⟨begList 0 constrs, (constrs.map (fun c => c.map idx)).flatten,
    columns.flatten, csrFlatten_ok idx constrs columns 0 hshape hpos, ?_, ?_, ?_, ?_, ?_, ?_⟩
  · rw [List.length_flatten]
    have : (constrs.map (fun c => c.map idx)).map List.length =
        constrs.map List.length := by
      simp [List.map_map, Function.comp]
    rw [this]; rfl
  · rw [List.length_flatten]
    have := forall₂_map_length hshape
    rw [← this]; rfl
  · exact begList_length constrs 0
  · intro i hi
    simpa using begList_getElem? constrs 0 i hi
  · intro i j ci x hi hj
    have hmapped : (constrs.map (fun c => c.map idx))[i]? = some (ci.map idx) := by
      rw [List.getElem?_map, hi]; rfl
    have hx : (ci.map idx)[j]? = some (idx x) := by
      rw [List.getElem?_map, hj]; rfl
    have hres := flatten_getElem? (constrs.map (fun c => c.map idx)) i j
      (ci.map idx) (idx x) hmapped hx
    have hlens : (constrs.map (fun c => c.map idx)).map List.length =
        constrs.map List.length := by
      simp [List.map_map, Function.comp]
    rwa [numnzOf_take_of_map_length_eq hlens i] at hres
  · intro i j coli y hi hj
    have hres := flatten_getElem? columns i j coli y hi hj
    rwa [← numnzOf_take_of_map_length_eq (forall₂_map_length hshape) i] at hres

/-- Witness for C1 at a concrete two-row input. -/
theorem csr_flattening_spec_witness :
    ∃ beg ind val,
      csrFlatten (fun c : Constr => c.Index) 0
        [[⟨1, 0⟩, ⟨1, 1⟩], [⟨1, 2⟩]] [[5, 6], [7]] = .ok (beg, ind, val) ∧
      ind.length = numnzOf [[(⟨1, 0⟩ : Constr), ⟨1, 1⟩], [⟨1, 2⟩]] ∧
      val.length = numnzOf [[(⟨1, 0⟩ : Constr), ⟨1, 1⟩], [⟨1, 2⟩]] ∧
      beg.length = ([[(⟨1, 0⟩ : Constr), ⟨1, 1⟩], [⟨1, 2⟩]] : List (List Constr)).length ∧
      (∀ i, i < ([[(⟨1, 0⟩ : Constr), ⟨1, 1⟩], [⟨1, 2⟩]] : List (List Constr)).length →
        beg[i]? = some (numnzOf (([[(⟨1, 0⟩ : Constr), ⟨1, 1⟩], [⟨1, 2⟩]] : List (List Constr)).take i))) ∧
      (∀ i j ci x, ([[(⟨1, 0⟩ : Constr), ⟨1, 1⟩], [⟨1, 2⟩]] : List (List Constr))[i]? = some ci →
        ci[j]? = some x →
        ind[numnzOf (([[(⟨1, 0⟩ : Constr), ⟨1, 1⟩], [⟨1, 2⟩]] : List (List Constr)).take i) + j]? =
          some x.Index) ∧
      (∀ i j coli y, ([[5, 6], [7]] : List (List GoFloat))[i]? = some coli → coli[j]? = some y →
        val[numnzOf (([[(⟨1, 0⟩ : Constr), ⟨1, 1⟩], [⟨1, 2⟩]] : List (List Constr)).take i) + j]? = some y) :=
  csr_flattening_spec (fun c : Constr => c.Index)
    [[⟨1, 0⟩, ⟨1, 1⟩], [⟨1, 2⟩]] [[5, 6], [7]]
    (List.Forall₂.cons rfl (List.Forall₂.cons rfl List.Forall₂.nil))
    (by decide)

/-- C2: every forwarding model operation (Optimize, Update, Write,
GetIntAttr, SetIntAttr, SetDoubleAttr, SetStringAttr, and the element
accessors), called on a well-formed (non-nil) model, returns a non-nil error
exactly when the foreign return code is nonzero, and on a zero code returns
nil together with the fetched value. -/
theorem model_ffi_errcode_iff (o : FFI) (m : Model) (attrname fname vs : String)
    (vi ind : Int) (vd : GoFloat) :
    (Model.OptimizeE o (some m) = none ↔
      o.ret (FFICall.optimize m.AsGRBModel) = 0) ∧
    (Model.UpdateE o (some m) = none ↔
      o.ret (FFICall.updatemodel m.AsGRBModel) = 0) ∧
    (Model.WriteE o (some m) fname = none ↔
      o.ret (FFICall.write m.AsGRBModel fname) = 0) ∧
    ((Model.GetIntAttrE o (some m) attrname).2 = none ↔
      o.ret (FFICall.getintattr m.AsGRBModel attrname) = 0) ∧
    (o.ret (FFICall.getintattr m.AsGRBModel attrname) = 0 →
      Model.GetIntAttrE o (some m) attrname =
        (o.intOut (FFICall.getintattr m.AsGRBModel attrname), none)) ∧
    (Model.SetIntAttrE o (some m) attrname vi = none ↔
      o.ret (FFICall.setintattr m.AsGRBModel attrname vi) = 0) ∧
    (Model.SetDoubleAttrE o (some m) attrname vd = none ↔
      o.ret (FFICall.setdblattr m.AsGRBModel attrname vd) = 0) ∧
    (Model.SetStringAttrE o (some m) attrname vs = none ↔
      o.ret (FFICall.setstrattr m.AsGRBModel attrname vs) = 0) ∧
    ((Model.getIntAttrElementE o (some m) attrname ind).2 = none ↔
      o.ret (FFICall.getintattrelement m.AsGRBModel attrname ind) = 0) ∧
    (o.ret (FFICall.getintattrelement m.AsGRBModel attrname ind) = 0 →
      Model.getIntAttrElementE o (some m) attrname ind =
        (o.intOut (FFICall.getintattrelement m.AsGRBModel attrname ind), none)) ∧
    ((Model.getCharAttrElementE o (some m) attrname ind).2 = none ↔
      o.ret (FFICall.getcharattrelement m.AsGRBModel attrname ind) = 0) ∧
    (o.ret (FFICall.getcharattrelement m.AsGRBModel attrname ind) = 0 →
      Model.getCharAttrElementE o (some m) attrname ind =
        (o.charOut (FFICall.getcharattrelement m.AsGRBModel attrname ind), none)) ∧
    ((Model.getDoubleAttrElementE o (some m) attrname ind).2 = none ↔
      o.ret (FFICall.getdblattrelement m.AsGRBModel attrname ind) = 0) ∧
    (o.ret (FFICall.getdblattrelement m.AsGRBModel attrname ind) = 0 →
      Model.getDoubleAttrElementE o (some m) attrname ind =
        (o.dblOut (FFICall.getdblattrelement m.AsGRBModel attrname ind), none)) ∧
    ((Model.getStringAttrElementE o (some m) attrname ind).2 = none ↔
      o.ret (FFICall.getstrattrelement m.AsGRBModel attrname ind) = 0) ∧
    (o.ret (FFICall.getstrattrelement m.AsGRBModel attrname ind) = 0 →
      Model.getStringAttrElementE o (some m) attrname ind =
        (o.strOut (FFICall.getstrattrelement m.AsGRBModel attrname ind), none)) ∧
    (Model.setIntAttrElementE o (some m) attrname ind vi = none ↔
      o.ret (FFICall.setintattrelement m.AsGRBModel attrname ind vi) = 0) ∧
    (Model.setCharAttrElementE o (some m) attrname ind vi = none ↔
      o.ret (FFICall.setcharattrelement m.AsGRBModel attrname ind vi) = 0) ∧
    (Model.setDoubleAttrElementE o (some m) attrname ind vd = none ↔
      o.ret (FFICall.setdblattrelement m.AsGRBModel attrname ind vd) = 0) ∧
    (Model.setStringAttrElementE o (some m) attrname ind vs = none ↔
      o.ret (FFICall.setstrattrelement m.AsGRBModel attrname ind vs) = 0) := by
  refine ⟨?_, ?_, ?_, ?_, ?_, ?_, ?_, ?_, ?_, ?_, ?_, ?_, ?_, ?_, ?_, ?_, ?_, ?_, ?_, ?_⟩
  · by_cases h : o.ret (FFICall.optimize m.AsGRBModel) = 0 <;>
      simp [Model.OptimizeE, h]
  · by_cases h : o.ret (FFICall.updatemodel m.AsGRBModel) = 0 <;>
      simp [Model.UpdateE, h]
  · by_cases h : o.ret (FFICall.write m.AsGRBModel fname) = 0 <;>
      simp [Model.WriteE, h]
  · by_cases h : o.ret (FFICall.getintattr m.AsGRBModel attrname) = 0 <;>
      simp [Model.GetIntAttrE, h]
  · intro h; simp [Model.GetIntAttrE, h]
  · by_cases h : o.ret (FFICall.setintattr m.AsGRBModel attrname vi) = 0 <;>
      simp [Model.SetIntAttrE, h]
  · by_cases h : o.ret (FFICall.setdblattr m.AsGRBModel attrname vd) = 0 <;>
      simp [Model.SetDoubleAttrE, h]
  · by_cases h : o.ret (FFICall.setstrattr m.AsGRBModel attrname vs) = 0 <;>
      simp [Model.SetStringAttrE, h]
  · by_cases h : o.ret (FFICall.getintattrelement m.AsGRBModel attrname ind) = 0 <;>
      simp [Model.getIntAttrElementE, h]
  · intro h; simp [Model.getIntAttrElementE, h]
  · by_cases h : o.ret (FFICall.getcharattrelement m.AsGRBModel attrname ind) = 0 <;>
      simp [Model.getCharAttrElementE, h]
  · intro h; simp [Model.getCharAttrElementE, h]
  · by_cases h : o.ret (FFICall.getdblattrelement m.AsGRBModel attrname ind) = 0 <;>
      simp [Model.getDoubleAttrElementE, h]
  · intro h; simp [Model.getDoubleAttrElementE, h]
  · by_cases h : o.ret (FFICall.getstrattrelement m.AsGRBModel attrname ind) = 0 <;>
      simp [Model.getStringAttrElementE, h]
  · intro h; simp [Model.getStringAttrElementE, h]
  · by_cases h : o.ret (FFICall.setintattrelement m.AsGRBModel attrname ind vi) = 0 <;>
      simp [Model.setIntAttrElementE, h]
  · by_cases h : o.ret (FFICall.setcharattrelement m.AsGRBModel attrname ind vi) = 0 <;>
      simp [Model.setCharAttrElementE, h]
  · by_cases h : o.ret (FFICall.setdblattrelement m.AsGRBModel attrname ind vd) = 0 <;>
      simp [Model.setDoubleAttrElementE, h]
  · by_cases h : o.ret (FFICall.setstrattrelement m.AsGRBModel attrname ind vs) = 0 <;>
      simp [Model.setStringAttrElementE, h]

/-- C4 counterexample: the expression types carry more than an index and a
model back-reference.  Two LinExpr values with identical handle content
differ in the constant offset alone (and the offset is observable through
AddConstant); a QuadExpr is built from six components, none of which is an
owning-model reference. -/
theorem expr_types_not_index_model_cex :
    ((⟨[], [], 0⟩ : LinExpr) ≠ (⟨[], [], 1⟩ : LinExpr)) ∧
    LinExpr.AddConstant ⟨[], [], 0⟩ 1 = ⟨[], [], 1⟩ ∧
    QuadExpr.AddQTerm ⟨[], [], [], [], [], 0⟩ ⟨1, 0⟩ ⟨1, 1⟩ 2 =
      ⟨[], [], [⟨1, 0⟩], [⟨1, 1⟩], [2], 0⟩ := by
  exact ⟨by decide, rfl, rfl⟩

/-- C4 amended: the Var and Constr handles carry exactly an owning-model
reference and an index; the LinExpr builder consists of the parallel lists
Ind and Val plus the constant Offset, and the QuadExpr builder of the lists
lind, lval, qrow, qcol, qval plus the constant offset — neither expression
type stores an owning-model reference or a single index. -/
theorem handle_and_expr_fields :
    (∀ v : Var, v = ⟨v.model, v.Index⟩) ∧
    (∀ c : Constr, c = ⟨c.model, c.Index⟩) ∧
    (∀ e : LinExpr, e = ⟨e.Ind, e.Val, e.Offset⟩) ∧
    (∀ q : QuadExpr, q = ⟨q.lind, q.lval, q.qrow, q.qcol, q.qval, q.offset⟩) :=
  ⟨fun _ => rfl, fun _ => rfl, fun _ => rfl, fun _ => rfl⟩

/-- C5 amended: SetTimeLimit and SetDBLParam on "TimeLimit" agree — same
error cases and the same sequence of foreign calls — whenever the
environment pointer is nil or the inner handle is present; the excluded
case (non-nil wrapper with nil inner handle) is settled by the
counterexample. -/
theorem settimelimit_setdblparam_equiv (o : FFI) (env : Option Env)
    (v : GoFloat)
    (h : env = none ∨ ∃ e hdl, env = some e ∧ e.env = some hdl) :
    ((Env.SetTimeLimitE o env v).1 = none ↔
      (Env.SetDBLParamE o env "TimeLimit" v).1 = none) ∧
    (Env.SetTimeLimitE o env v).2 = (Env.SetDBLParamE o env "TimeLimit" v).2 := by
  rcases h with rfl | ⟨e, hdl, rfl, hh⟩
  · simp [Env.SetTimeLimitE, Env.SetDBLParamE, IsValidDBLParam,
      scalarDoubleAttributes]
  · by_cases hc : o.ret (FFICall.setdblparam (some hdl) "TimeLimit" v) = 0 <;>
      simp [Env.SetTimeLimitE, Env.SetDBLParamE, IsValidDBLParam,
        scalarDoubleAttributes, hh, hc]

/-- Witness for C5 at a present inner handle. -/
theorem settimelimit_setdblparam_equiv_witness :
    ((Env.SetTimeLimitE ffi0 (some ⟨some 1⟩) 5).1 = none ↔
      (Env.SetDBLParamE ffi0 (some ⟨some 1⟩) "TimeLimit" 5).1 = none) ∧
    (Env.SetTimeLimitE ffi0 (some ⟨some 1⟩) 5).2 =
      (Env.SetDBLParamE ffi0 (some ⟨some 1⟩) "TimeLimit" 5).2 :=
  settimelimit_setdblparam_equiv ffi0 (some ⟨some 1⟩) 5
    (Or.inr ⟨⟨some 1⟩, 1, rfl, rfl⟩)

/-- C5 counterexample: on a non-nil wrapper holding a nil inner handle (and
an oracle whose calls all succeed), SetTimeLimit errors without any foreign
call while SetDBLParam performs a foreign call with the nil handle and
returns nil, so the two accessors are not equivalent there. -/
theorem settimelimit_setdblparam_cex :
    (Env.SetTimeLimitE ffi0 (some ⟨none⟩) 5).1 ≠ none ∧
    (Env.SetDBLParamE ffi0 (some ⟨none⟩) "TimeLimit" 5).1 = none ∧
    (Env.SetTimeLimitE ffi0 (some ⟨none⟩) 5).2 ≠
      (Env.SetDBLParamE ffi0 (some ⟨none⟩) "TimeLimit" 5).2 := by
  refine ⟨?_, ?_, ?_⟩ <;> decide

/-- C6: IsValidDBLParam accepts exactly the five scalar double parameter
names, and on any other name SetDBLParam returns a non-nil error and
GetDBLParam returns -1 with a non-nil error, both without performing any
foreign call (so the solver state is unchanged). -/
theorem dblparam_validation (s : String) (o : FFI) (env : Option Env)
    (v : GoFloat) :
    (IsValidDBLParam s = true ↔
      s ∈ ["TimeLimit", "Cutoff", "BestObjStop", "MIPGap", "Heuristics"]) ∧
    (IsValidDBLParam s = false →
      Env.SetDBLParamE o env s v = (some (.invalidParam s), []) ∧
      Env.GetDBLParamE o env s = ((-1, some (.invalidParam s)), [])) := by
  constructor
  · rw [IsValidDBLParam, List.any_eq_true]
    constructor
    · rintro ⟨x, hx, hbeq⟩
      rw [beq_iff_eq] at hbeq
      rw [← hbeq]
      exact hx
    · intro hs
      exact ⟨s, hs, beq_self_eq_true s⟩
  · intro hinvalid
    constructor
    · simp [Env.SetDBLParamE, hinvalid]
    · simp [Env.GetDBLParamE, hinvalid]

/-- Witness for C6 at the invalid name "Foo". -/
theorem dblparam_validation_witness :
    Env.SetDBLParamE ffi0 (some ⟨some 1⟩) "Foo" 5 =
      (some (.invalidParam "Foo"), []) ∧
    Env.GetDBLParamE ffi0 (some ⟨some 1⟩) "Foo" =
      ((-1, some (.invalidParam "Foo")), []) :=
  (dblparam_validation "Foo" ffi0 (some ⟨some 1⟩) 5).2 (by decide)

/-- C10: Env.Check returns nil exactly when both the wrapper pointer and the
inner solver handle are present, and every operation that begins with Check
(SetTimeLimit, GetTimeLimit, SetStringParam, NewModel, LoadModel) returns
the uninitialized-environment error — with GetTimeLimit returning -1.0 as
its value — on a nil or handle-less environment, without any foreign call. -/
theorem env_check_guards (env : Option Env) (o : FFI) (v : GoFloat)
    (p nv nm path : String) :
    (Env.CheckE env = none ↔ ∃ e hdl, env = some e ∧ e.env = some hdl) ∧
    (Env.CheckE env ≠ none →
      Env.SetTimeLimitE o env v = (some .uninitializedEnv, []) ∧
      Env.GetTimeLimitE o env = ((-1, some .uninitializedEnv), []) ∧
      Env.SetStringParamE o env p nv = (some .uninitializedEnv, []) ∧
      NewModelE o nm env = (none, some .uninitializedEnv) ∧
      LoadModelE o path env = (none, some .uninitializedEnv)) := by
  match env with
  | none =>
    refine ⟨?_, ?_⟩
    · simp [Env.CheckE]
    · intro _
      exact ⟨rfl, rfl, rfl, rfl, rfl⟩
  | some e =>
    match he : e.env with
    | none =>
      refine ⟨?_, ?_⟩
      · simp [Env.CheckE, he]
      · intro _
        obtain ⟨henv⟩ := e
        simp only at he
        subst he
        exact ⟨rfl, rfl, rfl, rfl, rfl⟩
    | some hdl =>
      refine ⟨?_, ?_⟩
      · simp [Env.CheckE, he]
      · intro hc
        exact absurd (by simp [Env.CheckE, he]) hc

/-- Witness for C10 at the nil environment. -/
theorem env_check_guards_witness :
    Env.SetTimeLimitE ffi0 none 5 = (some .uninitializedEnv, []) ∧
    Env.GetTimeLimitE ffi0 none = ((-1, some .uninitializedEnv), []) ∧
    Env.SetStringParamE ffi0 none "p" "q" = (some .uninitializedEnv, []) ∧
    NewModelE ffi0 "m" none = (none, some .uninitializedEnv) ∧
    LoadModelE ffi0 "f" none = (none, some .uninitializedEnv) :=
  (env_check_guards none ffi0 5 "p" "q" "m" "f").2 (by decide)

/-- C7 counterexample: with an empty `constrs` but a non-empty `columns`
(lengths 0 and 1 differ) the input checking of AddVars skips the
constrs/columns comparisons, so a successful run adds the requested (zero)
variables and returns nil instead of a MismatchedLengthError. -/
theorem addvars_length_gap_cex :
    ([] : List (List Constr)).length ≠ ([[1]] : List (List GoFloat)).length ∧
    Model.AddVars_InputCheckingE (some m0) [] [] [] [] [] [] [[1]] = none ∧
    Model.AddVarsE ffi0 (some m0) [] [] [] [] [] [] [[1]] =
      GoResult.ok (m0, []) := by
  refine ⟨by decide, by decide, by decide⟩

/-- C7 amended: AddVars reports a MismatchedLengthError (before any foreign
call or cache mutation) when any two of vtypes, objs, lbs, ubs, names
differ in length, or when constrs is non-empty and its length differs from
that of names or columns; mismatches of an empty constrs against a
non-empty columns (or of names against an empty constrs) are not checked. -/
theorem addvars_mismatch_errors (m : Model) (vtypes : List Int)
    (objs lbs ubs : List GoFloat) (names : List String)
    (constrs : List (List Constr)) (columns : List (List GoFloat))
    (hwf : Model.CheckE (some m) = none)
    (h : vtypes.length ≠ objs.length ∨ objs.length ≠ lbs.length ∨
      lbs.length ≠ ubs.length ∨ ubs.length ≠ names.length ∨
      (0 < constrs.length ∧ (names.length ≠ constrs.length ∨
        constrs.length ≠ columns.length))) :
    ∃ l1 l2 n1 n2,
      Model.AddVars_InputCheckingE (some m) vtypes objs lbs ubs names constrs
        columns = some (.mismatchedLength l1 l2 n1 n2) ∧
      Model.AddVarsE ffi0 (some m) vtypes objs lbs ubs names constrs columns =
        GoResult.err (.mismatchedLength l1 l2 n1 n2) := by
  have hmain : ∃ l1 l2 n1 n2,
      Model.AddVars_InputCheckingE (some m) vtypes objs lbs ubs names constrs
        columns = some (.mismatchedLength l1 l2 n1 n2) := by
    rw [Model.AddVars_InputCheckingE, hwf]
    by_cases h1 : vtypes.length = objs.length
    case neg =>
      exact ⟨vtypes.length, objs.length, "vtypes", "objs", by simp [h1]⟩
    by_cases h2 : objs.length = lbs.length
    case neg =>
      exact ⟨objs.length, lbs.length, "objs", "lbs", by simp [h1, h2]⟩
    by_cases h3 : lbs.length = ubs.length
    case neg =>
      exact ⟨lbs.length, ubs.length, "lbs", "ubs", by simp [h1, h2, h3]⟩
    by_cases h4 : ubs.length = names.length
    case neg =>
      exact ⟨ubs.length, names.length, "ubs", "names", by simp [h1, h2, h3, h4]⟩
    have h5 : 0 < constrs.length ∧ (names.length ≠ constrs.length ∨
        constrs.length ≠ columns.length) := by
      rcases h with h | h | h | h | h
      · exact absurd h1 h
      · exact absurd h2 h
      · exact absurd h3 h
      · exact absurd h4 h
      · exact h
    obtain ⟨hpos, hmis⟩ := h5
    by_cases h6 : names.length = constrs.length
    case neg =>
      exact ⟨names.length, constrs.length, "names", "constrs",
        by simp [h1, h2, h3, h4, hpos, h6]⟩
    have h7 : constrs.length ≠ columns.length := by
      rcases hmis with hmis | hmis
      · exact absurd h6 hmis
      · exact hmis
    exact ⟨constrs.length, columns.length, "constrs", "columns",
      by simp [h1, h2, h3, h4, hpos, h6, h7]⟩
  obtain ⟨l1, l2, n1, n2, hic⟩ := hmain
  refine ⟨l1, l2, n1, n2, hic, ?_⟩
  rw [Model.AddVarsE, hic]

/-- Witness for C7 amended at a concrete mismatch of vtypes and objs. -/
theorem addvars_mismatch_errors_witness :
    ∃ l1 l2 n1 n2,
      Model.AddVars_InputCheckingE (some m0) [66] [] [] [] [] [] [] =
        some (.mismatchedLength l1 l2 n1 n2) ∧
      Model.AddVarsE ffi0 (some m0) [66] [] [] [] [] [] [] =
        GoResult.err (.mismatchedLength l1 l2 n1 n2) :=
  addvars_mismatch_errors m0 [66] [] [] [] [] [] [] (by decide)
    (Or.inl (by decide))

/-- C3 as stated fails: on a model whose variable cache is already
non-empty, a bulk add whose foreign calls all succeed ends in the
index-out-of-range panic of the result-slice store `vars[i]` (and likewise
`constrs[i]` in AddConstrs), instead of returning the new handles; the
sibling loops of AddVarsWithTypes / AddVarsWithoutTypes store at `i-xcols`,
which marks the unshifted store as a slip. -/
theorem addvars_oob_write_panic :
    Model.AddVarsE ffi0 (some m1) [66] [0] [0] [0] ["x"] [] [] =
      GoResult.panicked ∧
    Model.AddConstrsE ffi0 (some m1c) [[]] [[]] [61] [0] ["c"] =
      GoResult.panicked ∧
    Model.AddVarsE ffi0 (some m0) [66] [0] [0] [0] ["x"] [] [] =
      GoResult.ok ({ m0 with Variables := [⟨1, 0⟩] }, [some ⟨1, 0⟩]) := by
  refine ⟨by decide, by decide, by decide⟩

lemma linOp_preserves_wf (e : LinExpr) (op : LinOp) (h : e.wf) :
    (e.applyOp op).wf := by
  cases op <;>
    simp [LinExpr.applyOp, LinExpr.AddTerm, LinExpr.AddConstant,
      LinExpr.wf] at h ⊢ <;> omega

lemma linOps_preserve_wf :
    ∀ (ops : List LinOp) (e : LinExpr), e.wf → (e.applyOps ops).wf := by
  intro ops
  induction ops with
  | nil => intro e h; exact h
  | cons op ops ih =>
    intro e h
    exact ih (e.applyOp op) (linOp_preserves_wf e op h)

lemma quadOp_preserves_wf (q : QuadExpr) (op : QuadOp) (h : q.wf) :
    (q.applyOp op).wf := by
  obtain ⟨h1, h2, h3⟩ := h
  cases op <;>
    simp [QuadExpr.applyOp, QuadExpr.AddTerm, QuadExpr.AddQTerm,
      QuadExpr.AddConstant, QuadExpr.wf] <;> omega

lemma quadOps_preserve_wf :
    ∀ (ops : List QuadOp) (q : QuadExpr), q.wf → (q.applyOps ops).wf := by
  intro ops
  induction ops with
  | nil => intro q h; exact h
  | cons op ops ih =>
    intro q h
    exact ih (q.applyOp op) (quadOp_preserves_wf q op h)

/-- C9: every sequence of builder calls preserves the expression shape
invariants — for LinExpr the handle and coefficient lists stay parallel
(AddTerm extends both by one and leaves the offset alone, AddConstant
changes only the offset), and for QuadExpr the linear pair and the
quadratic triple stay parallel. -/
theorem expr_builder_invariants (e : LinExpr) (q : QuadExpr) (v : Var)
    (c : GoFloat) (lops : List LinOp) (qops : List QuadOp)
    (he : e.wf) (hq : q.wf) :
    (LinExpr.applyOps e lops).wf ∧
    (e.AddTerm v c).Ind = e.Ind ++ [v] ∧
    (e.AddTerm v c).Val = e.Val ++ [c] ∧
    (e.AddTerm v c).Offset = e.Offset ∧
    (e.AddConstant c).Ind = e.Ind ∧
    (e.AddConstant c).Val = e.Val ∧
    (e.AddConstant c).Offset = e.Offset + c ∧
    (QuadExpr.applyOps q qops).wf :=
  ⟨linOps_preserve_wf lops e he, rfl, rfl, rfl, rfl, rfl, rfl,
    quadOps_preserve_wf qops q hq⟩

/-- Witness for C9 at a concrete expression and call sequence. -/
theorem expr_builder_invariants_witness :
    (LinExpr.applyOps ⟨[], [], 0⟩
      [.addTerm ⟨1, 0⟩ 2, .addConstant 3, .addTerm ⟨1, 1⟩ 4]).wf ∧
    (LinExpr.AddTerm ⟨[], [], 0⟩ ⟨1, 0⟩ 2).Ind = [] ++ [⟨1, 0⟩] ∧
    (LinExpr.AddTerm ⟨[], [], 0⟩ ⟨1, 0⟩ 2).Val = [] ++ [2] ∧
    (LinExpr.AddTerm ⟨[], [], 0⟩ ⟨1, 0⟩ 2).Offset = (0 : GoFloat) ∧
    (LinExpr.AddConstant ⟨[], [], 0⟩ 2).Ind = [] ∧
    (LinExpr.AddConstant ⟨[], [], 0⟩ 2).Val = [] ∧
    (LinExpr.AddConstant ⟨[], [], 0⟩ 2).Offset = (0 : GoFloat) + 2 ∧
    (QuadExpr.applyOps ⟨[], [], [], [], [], 0⟩
      [.addQTerm ⟨1, 0⟩ ⟨1, 1⟩ 5, .addTerm ⟨1, 0⟩ 6, .addConstant 7]).wf :=
  expr_builder_invariants ⟨[], [], 0⟩ ⟨[], [], [], [], [], 0⟩ ⟨1, 0⟩ 2
    [.addTerm ⟨1, 0⟩ 2, .addConstant 3, .addTerm ⟨1, 1⟩ 4]
    [.addQTerm ⟨1, 0⟩ ⟨1, 1⟩ 5, .addTerm ⟨1, 0⟩ 6, .addConstant 7]
    rfl ⟨rfl, rfl, rfl⟩

/-- The block of handles appended by a bulk add loop: indices start, start+1,
and so on. -/
def idxRange {β : Type} (mk : Int → β) : Nat → Nat → List β
  | _, 0 => []
  | start, cnt + 1 => mk (start : Int) :: idxRange mk (start + 1) cnt

lemma bulkAppendAt_cache {β : Type} (mk : Int → β) :
    ∀ (cnt i : Nat) (cache : List β) (res : List (Option β))
      (cache1 : List β) (res1 : List (Option β)),
      bulkAppendAt mk i cnt cache res = some (cache1, res1) →
      cache1 = cache ++ idxRange mk i cnt := by
  intro cnt
  induction cnt with
  | zero =>
    intro i cache res cache1 res1 h
    simp [bulkAppendAt, idxRange] at h ⊢
    exact h.1.symm
  | succ cnt ih =>
    intro i cache res cache1 res1 h
    rw [bulkAppendAt] at h
    cases hset : setChecked res i (some (mk (i : Int))) with
    | none => rw [hset] at h; simp at h
    | some res2 =>
      rw [hset] at h
      simp only at h
      have := ih (i + 1) (cache ++ [mk (i : Int)]) res2 cache1 res1 h
      rw [this, idxRange]
      simp

lemma bulkAppendShifted_cache {β : Type} (mk : Int → β) (xcols : Nat) :
    ∀ (cnt i : Nat) (cache : List β) (res : List (Option β))
      (cache1 : List β) (res1 : List (Option β)),
      bulkAppendShifted mk xcols i cnt cache res = some (cache1, res1) →
      cache1 = cache ++ idxRange mk i cnt := by
  intro cnt
  induction cnt with
  | zero =>
    intro i cache res cache1 res1 h
    simp [bulkAppendShifted, idxRange] at h ⊢
    exact h.1.symm
  | succ cnt ih =>
    intro i cache res cache1 res1 h
    rw [bulkAppendShifted] at h
    cases hset : setChecked res (i - xcols) (some (mk (i : Int))) with
    | none => rw [hset] at h; simp at h
    | some res2 =>
      rw [hset] at h
      simp only at h
      have := ih (i + 1) (cache ++ [mk (i : Int)]) res2 cache1 res1 h
      rw [this, idxRange]
      simp

/-- Position-indexed invariant: the handle stored at position i carries
index start + i. -/
def indexedFrom {β : Type} (proj : β → Int) (start : Nat) (l : List β) : Prop :=
  ∀ i b, l[i]? = some b → proj b = ((start + i : Nat) : Int)

lemma idxRange_indexedFrom {β : Type} (proj : β → Int) (mk : Int → β)
    (hmk : ∀ z, proj (mk z) = z) :
    ∀ (cnt start : Nat), indexedFrom proj start (idxRange mk start cnt) := by
  intro cnt
  induction cnt with
  | zero => intro start i b h; simp [idxRange] at h
  | succ cnt ih =>
    intro start i b h
    cases i with
    | zero =>
      simp only [idxRange, List.getElem?_cons_zero, Option.some.injEq] at h
      subst h
      simp [hmk]
    | succ i =>
      simp only [idxRange, List.getElem?_cons_succ] at h
      have := ih (start + 1) i b h
      rw [this]
      push_cast
      omega

lemma indexedFrom_append {β : Type} (proj : β → Int) (start : Nat)
    (l t : List β) (hl : indexedFrom proj start l)
    (ht : indexedFrom proj (start + l.length) t) :
    indexedFrom proj start (l ++ t) := by
  intro i b h
  by_cases hi : i < l.length
  · rw [List.getElem?_append_left hi] at h
    exact hl i b h
  · rw [List.getElem?_append_right (le_of_not_lt hi)] at h
    have := ht (i - l.length) b h
    rw [this]
    push_cast
    omega

lemma AddVarE_ok_shape {o : FFI} {m m1 : Model} {vt : Int}
    {ob lb ub : GoFloat} {nm : String} {cs : List Constr}
    {cols : List GoFloat} {v : Var}
    (h : Model.AddVarE o (some m) vt ob lb ub nm cs cols = .ok (m1, v)) :
    m1.Variables = m.Variables ++ [⟨m.id, (m.Variables.length : Int)⟩] ∧
    m1.Constraints = m.Constraints ∧ m1.id = m.id := by
  simp only [Model.AddVarE] at h
  split_ifs at h
  split at h
  · simp at h
  · simp only [GoResult.ok.injEq, Prod.mk.injEq] at h
    obtain ⟨hm, -⟩ := h
    subst hm
    exact ⟨rfl, rfl, rfl⟩

lemma AddVarsE_ok_shape {o : FFI} {m m1 : Model} {vtypes : List Int}
    {objs lbs ubs : List GoFloat} {names : List String}
    {constrs : List (List Constr)} {columns : List (List GoFloat)}
    {vs : List (Option Var)}
    (h : Model.AddVarsE o (some m) vtypes objs lbs ubs names constrs columns =
      .ok (m1, vs)) :
    m1.Variables = m.Variables ++
      idxRange (fun z => (⟨m.id, z⟩ : Var)) m.Variables.length vtypes.length ∧
    m1.Constraints = m.Constraints ∧ m1.id = m.id := by
  simp only [Model.AddVarsE] at h
  split at h
  · simp at h
  split at h
  · simp at h
  · simp at h
  split_ifs at h
  split at h
  · simp at h
  split at h
  · simp at h
  case _ pr hbulk =>
    simp only [GoResult.ok.injEq, Prod.mk.injEq] at h
    obtain ⟨hm, -⟩ := h
    subst hm
    refine ⟨?_, rfl, rfl⟩
    exact bulkAppendAt_cache _ _ _ _ _ _ _ hbulk

lemma AddVarsWithTypesE_ok_shape {o : FFI} {m m1 : Model} {count vtype : Int}
    {vs : List (Option Var)}
    (h : Model.AddVarsWithTypesE o (some m) count vtype = .ok (m1, vs)) :
    m1.Variables = m.Variables ++
      idxRange (fun z => (⟨m.id, z⟩ : Var)) m.Variables.length count.toNat ∧
    m1.Constraints = m.Constraints ∧ m1.id = m.id := by
  simp only [Model.AddVarsWithTypesE] at h
  split_ifs at h
  split at h
  · simp at h
  split at h
  · simp at h
  case _ pr hbulk =>
    simp only [GoResult.ok.injEq, Prod.mk.injEq] at h
    obtain ⟨hm, -⟩ := h
    subst hm
    refine ⟨?_, rfl, rfl⟩
    exact bulkAppendShifted_cache _ _ _ _ _ _ _ _ hbulk

lemma AddVarsWithoutTypesE_ok_shape {o : FFI} {m m1 : Model}
    {lbs ubs : List GoFloat} {vs : List (Option Var)}
    (h : Model.AddVarsWithoutTypesE o (some m) lbs ubs = .ok (m1, vs)) :
    m1.Variables = m.Variables ++
      idxRange (fun z => (⟨m.id, z⟩ : Var)) m.Variables.length lbs.length ∧
    m1.Constraints = m.Constraints ∧ m1.id = m.id := by
  simp only [Model.AddVarsWithoutTypesE] at h
  split_ifs at h
  split at h
  · simp at h
  split at h
  · simp at h
  case _ pr hbulk =>
    simp only [GoResult.ok.injEq, Prod.mk.injEq] at h
    obtain ⟨hm, -⟩ := h
    subst hm
    refine ⟨?_, rfl, rfl⟩
    exact bulkAppendShifted_cache _ _ _ _ _ _ _ _ hbulk

lemma AddConstrE_ok_shape {o : FFI} {m m1 : Model} {vars : List Var}
    {val : List GoFloat} {sense : Int} {rhs : GoFloat} {nm : String}
    {c : Constr}
    (h : Model.AddConstrE o (some m) vars val sense rhs nm = .ok (m1, c)) :
    m1.Constraints = m.Constraints ++ [⟨m.id, (m.Constraints.length : Int)⟩] ∧
    m1.Variables = m.Variables ∧ m1.id = m.id := by
  simp only [Model.AddConstrE] at h
  split_ifs at h
  split at h
  · simp at h
  · simp only [GoResult.ok.injEq, Prod.mk.injEq] at h
    obtain ⟨hm, -⟩ := h
    subst hm
    exact ⟨rfl, rfl, rfl⟩

lemma AddConstrsE_ok_shape {o : FFI} {m m1 : Model} {vars : List (List Var)}
    {vals : List (List GoFloat)} {senses : List Int} {rhs : List GoFloat}
    {constrnames : List String} {cs : List (Option Constr)}
    (h : Model.AddConstrsE o (some m) vars vals senses rhs constrnames =
      .ok (m1, cs)) :
    m1.Constraints = m.Constraints ++
      idxRange (fun z => (⟨m.id, z⟩ : Constr)) m.Constraints.length
        constrnames.length ∧
    m1.Variables = m.Variables ∧ m1.id = m.id := by
  simp only [Model.AddConstrsE] at h
  split_ifs at h
  split at h
  · simp at h
  split at h
  · simp at h
  · simp at h
  split_ifs at h
  split at h
  · simp at h
  split at h
  · simp at h
  case _ pr hbulk =>
    simp only [GoResult.ok.injEq, Prod.mk.injEq] at h
    obtain ⟨hm, -⟩ := h
    subst hm
    refine ⟨?_, rfl, rfl⟩
    exact bulkAppendAt_cache _ _ _ _ _ _ _ hbulk

lemma NewModelE_ok_shape {o : FFI} {nm : String} {env : Option Env} {m : Model}
    (h : NewModelE o nm env = (some m, none)) :
    m.Variables = [] ∧ m.Constraints = [] := by
  simp only [NewModelE] at h
  split at h
  · simp at h
  split at h
  · simp at h
  split_ifs at h
  · simp at h
  split at h
  · simp at h
  · simp only [Prod.mk.injEq, Option.some.injEq] at h
    obtain ⟨hm, -⟩ := h
    subst hm
    exact ⟨rfl, rfl⟩

lemma reachable_indexed (m : Model) (h : ReachableModel m) :
    indexedFrom Var.Index 0 m.Variables ∧
    indexedFrom Constr.Index 0 m.Constraints := by
  induction h with
  | newmodel o nm env m hnew =>
    obtain ⟨hv, hc⟩ := NewModelE_ok_shape hnew
    rw [hv, hc]
    constructor <;> (intro i b hib; simp at hib)
  | addVar o m vt ob lb ub nm cs cols m1 v hm hok ih =>
    obtain ⟨hv, hc, -⟩ := AddVarE_ok_shape hok
    obtain ⟨ihv, ihc⟩ := ih
    rw [hv, hc]
    refine ⟨indexedFrom_append _ _ _ _ ihv ?_, ihc⟩
    have : [(⟨m.id, (m.Variables.length : Int)⟩ : Var)] =
        idxRange (fun z => (⟨m.id, z⟩ : Var)) m.Variables.length 1 := rfl
    rw [this]
    simpa using idxRange_indexedFrom Var.Index _ (fun _ => rfl) 1
      m.Variables.length
  | addVars o m vtypes objs lbs ubs names constrs columns m1 vs hm hok ih =>
    obtain ⟨hv, hc, -⟩ := AddVarsE_ok_shape hok
    obtain ⟨ihv, ihc⟩ := ih
    rw [hv, hc]
    refine ⟨indexedFrom_append _ _ _ _ ihv ?_, ihc⟩
    simpa using idxRange_indexedFrom Var.Index _ (fun _ => rfl) vtypes.length
      m.Variables.length
  | addVarsWithTypes o m count vtype m1 vs hm hok ih =>
    obtain ⟨hv, hc, -⟩ := AddVarsWithTypesE_ok_shape hok
    obtain ⟨ihv, ihc⟩ := ih
    rw [hv, hc]
    refine ⟨indexedFrom_append _ _ _ _ ihv ?_, ihc⟩
    simpa using idxRange_indexedFrom Var.Index _ (fun _ => rfl) count.toNat
      m.Variables.length
  | addVarsWithoutTypes o m lbs ubs m1 vs hm hok ih =>
    obtain ⟨hv, hc, -⟩ := AddVarsWithoutTypesE_ok_shape hok
    obtain ⟨ihv, ihc⟩ := ih
    rw [hv, hc]
    refine ⟨indexedFrom_append _ _ _ _ ihv ?_, ihc⟩
    simpa using idxRange_indexedFrom Var.Index _ (fun _ => rfl) lbs.length
      m.Variables.length
  | addConstr o m vars val sense rhs nm m1 c hm hok ih =>
    obtain ⟨hc, hv, -⟩ := AddConstrE_ok_shape hok
    obtain ⟨ihv, ihc⟩ := ih
    rw [hv, hc]
    refine ⟨ihv, indexedFrom_append _ _ _ _ ihc ?_⟩
    have : [(⟨m.id, (m.Constraints.length : Int)⟩ : Constr)] =
        idxRange (fun z => (⟨m.id, z⟩ : Constr)) m.Constraints.length 1 := rfl
    rw [this]
    simpa using idxRange_indexedFrom Constr.Index _ (fun _ => rfl) 1
      m.Constraints.length
  | addConstrs o m vars vals senses rhs constrnames m1 cs hm hok ih =>
    obtain ⟨hc, hv, -⟩ := AddConstrsE_ok_shape hok
    obtain ⟨ihv, ihc⟩ := ih
    rw [hv, hc]
    refine ⟨ihv, indexedFrom_append _ _ _ _ ihc ?_⟩
    simpa using idxRange_indexedFrom Constr.Index _ (fun _ => rfl)
      constrnames.length m.Constraints.length

/-- C8: on every model reachable by successful add operations from a
successful NewModel, the cached handle at position i of the variable
(resp. constraint) list carries index i, and each single add appends
exactly one handle whose index is the previous length of its list. -/
theorem reachable_index_invariant (m : Model) (hm : ReachableModel m) :
    (∀ (i : Nat) (v : Var), m.Variables[i]? = some v → v.Index = (i : Int)) ∧
    (∀ (j : Nat) (c : Constr), m.Constraints[j]? = some c → c.Index = (j : Int)) ∧
    (∀ (o : FFI) (vt : Int) (ob lb ub : GoFloat) (nm : String)
      (cs : List Constr) (cols : List GoFloat) (m1 : Model) (v : Var),
      Model.AddVarE o (some m) vt ob lb ub nm cs cols = .ok (m1, v) →
      m1.Variables = m.Variables ++ [⟨m.id, (m.Variables.length : Int)⟩] ∧
      m1.Constraints = m.Constraints) ∧
    (∀ (o : FFI) (vars : List Var) (val : List GoFloat) (sense : Int)
      (rhs : GoFloat) (nm : String) (m1 : Model) (c : Constr),
      Model.AddConstrE o (some m) vars val sense rhs nm = .ok (m1, c) →
      m1.Constraints = m.Constraints ++ [⟨m.id, (m.Constraints.length : Int)⟩] ∧
      m1.Variables = m.Variables) := by
  obtain ⟨hv, hc⟩ := reachable_indexed m hm
  refine ⟨?_, ?_, ?_, ?_⟩
  · intro i v hiv
    simpa using hv i v hiv
  · intro j c hjc
    simpa using hc j c hjc
  · intro o vt ob lb ub nm cs cols m1 v hok
    obtain ⟨h1, h2, -⟩ := AddVarE_ok_shape hok
    exact ⟨h1, h2⟩
  · intro o vars val sense rhs nm m1 c hok
    obtain ⟨h1, h2, -⟩ := AddConstrE_ok_shape hok
    exact ⟨h1, h2⟩

/-- Witness for C8 at the model produced by a concrete successful NewModel. -/
theorem reachable_index_invariant_witness :
    (∀ (i : Nat) (v : Var), m0.Variables[i]? = some v → v.Index = (i : Int)) ∧
    (∀ (j : Nat) (c : Constr), m0.Constraints[j]? = some c → c.Index = (j : Int)) ∧
    (∀ (o : FFI) (vt : Int) (ob lb ub : GoFloat) (nm : String)
      (cs : List Constr) (cols : List GoFloat) (m1 : Model) (v : Var),
      Model.AddVarE o (some m0) vt ob lb ub nm cs cols = .ok (m1, v) →
      m1.Variables = m0.Variables ++ [⟨m0.id, (m0.Variables.length : Int)⟩] ∧
      m1.Constraints = m0.Constraints) ∧
    (∀ (o : FFI) (vars : List Var) (val : List GoFloat) (sense : Int)
      (rhs : GoFloat) (nm : String) (m1 : Model) (c : Constr),
      Model.AddConstrE o (some m0) vars val sense rhs nm = .ok (m1, c) →
      m1.Constraints = m0.Constraints ++ [⟨m0.id, (m0.Constraints.length : Int)⟩] ∧
      m1.Variables = m0.Variables) :=
  reachable_index_invariant m0
    (ReachableModel.newmodel ffi0 "m" (some ⟨some 1⟩) m0 (by decide))
